import Mathlib

/-!
Shallow embedding of the expression-collapsing and block-assembly core of
`xii/linalg/convert.py` and the aliased-vector-view wrapper of
`xii/linalg/function.py`, together with theorems settling the spec's claims.

Matrices are modelled over exact integers (the backend's floating-point
kernels are treated as exact arithmetic, per the spec's assumption that the
numerical kernels are correct).  Recursive Python functions are modelled
with an explicit fuel parameter; the result type distinguishes a normal
value (`ok`), a raised exception — assertion failure, ValueError, TypeError,
AttributeError, NameError — (`err`), and exhaustion of every amount of fuel,
i.e. non-termination of the source recursion (`spin`).
-/

namespace Xii

/-- Result of running a piece of the Python code: a value, a raised
exception, or failure to finish within the given fuel. -/
inductive Res (α : Type) where
  | ok (a : α)
  | err
  | spin
deriving DecidableEq

def Res.bind {α β : Type} : Res α → (α → Res β) → Res β
  | .ok a, f => f a
  | .err, _ => .err
  | .spin, _ => .spin

/-- A concrete backend matrix (PETScMatrix): its size and its entries,
row-major.  `rows`/`cols` model `size(0)`/`size(1)`. -/
structure Mat where
  rows : Nat
  cols : Nat
  data : List (List Int)
deriving DecidableEq

def dotL (u v : List Int) : Int := ((u.zip v).map (fun p => p.1 * p.2)).sum

def Mat.colL (A : Mat) (j : Nat) : List Int := A.data.map (fun r => r.getD j 0)

/-- Backend transpose kernel (`A_.transpose(C_)`), modelled mathematically. -/
def Mat.transpose (A : Mat) : Mat :=
  ⟨A.cols, A.rows, (List.range A.cols).map (fun j => A.colL j)⟩

/-- Backend matrix-matrix product kernel (`A_.matMult(B_, C_)`). -/
def Mat.matMult (A B : Mat) : Mat :=
  ⟨A.rows, B.cols, A.data.map (fun r => (List.range B.cols).map (fun j => dotL r (B.colL j)))⟩

/-- Backend scale-in-place on a copy (`C_ = A_.copy(); C_.scale(c)`). -/
def Mat.scale (A : Mat) (c : Int) : Mat :=
  ⟨A.rows, A.cols, A.data.map (fun r => r.map (fun x => c * x))⟩

/-- Backend axpy on a copy (`C_ = A_.copy(); C_.axpy(c, B_)`), i.e. A + c*B. -/
def Mat.axpy (A : Mat) (c : Int) (B : Mat) : Mat :=
  ⟨A.rows, A.cols,
   (A.data.zip B.data).map (fun p => (p.1.zip p.2).map (fun q => q.1 + c * q.2))⟩

/-- Modelled from the spec: `diagonal_matrix(n, c)` is imported from
`xii.linalg.matrix_utils`, which is not among the sources; the spec says a
non-zero scalar cell is treated as "that scalar times the identity block". -/
def diagonal_matrix (n : Nat) (c : Int) : Mat :=
  ⟨n, n, (List.range n).map (fun i => (List.range n).map (fun j => if i = j then c else 0))⟩

/-- The recursive expression term handed to `collapse`/`get_dims`: plain
numbers, PETSc matrix and vector handles, cbc.block composition nodes
(`block_mul` with its operand chain, `block_add`, `block_sub`,
`block_transpose`), and an opaque node that exposes a precomputed matrix
through its attribute `A` (the `hasattr(bmat, 'A')` branch). -/
inductive Expr where
  | num (x : Int)
  | mat (A : Mat)
  | vec (v : List Int)
  | mul (chain : List Expr)
  | add (A B : Expr)
  | sub (A B : Expr)
  | tr (A : Expr)
  | wrapA (A : Mat)

/-- A fully collapsed value: exactly one of scalar / matrix handle / vector
handle (the classification predicates `is_number` / `is_petsc_mat` /
`is_petsc_vec` of `xii.linalg.matrix_utils`, which is not among the sources,
are modelled from the spec's Value Model as the three constructors). -/
inductive Value where
  | num (x : Int)
  | mat (A : Mat)
  | vec (v : List Int)
deriving DecidableEq

def Value.toExpr : Value → Expr
  | .num x => .num x
  | .mat A => .mat A
  | .vec v => .vec v

/-- The operand chain a cbc.block `block_mul` stores: `block_mul.__init__`
flattens nested `block_mul` operands into one chain. -/
def chainOf : Expr → List Expr
  | .mul c => c
  | e => [e]

/-- cbc.block `block_mul(a, b)` (the patched `__mul__`). -/
def blockMul (a b : Expr) : Expr := .mul (chainOf a ++ chainOf b)

/-- Python `a * b` on collapse results: two plain numbers multiply to a
plain number, otherwise cbc.block's patched operators build a `block_mul`. -/
def pyMul (a b : Expr) : Expr :=
  match a, b with
  | .num x, .num y => .num (x * y)
  | _, _ => blockMul a b

def pyMulV (a b : Value) : Expr := pyMul a.toExpr b.toExpr

/-- Python `a + b` on collapse results: numbers add, otherwise `block_add`. -/
def pyAddV (a b : Value) : Expr :=
  match a, b with
  | .num x, .num y => .num (x + y)
  | _, _ => .add a.toExpr b.toExpr

/-- Python `a - b` on collapse results: numbers subtract, otherwise `block_sub`. -/
def pySubV (a b : Value) : Expr :=
  match a, b with
  | .num x, .num y => .num (x - y)
  | _, _ => .sub a.toExpr b.toExpr

/-- `reduce(operator.mul, chain)`: left fold of Python `*` over the chain. -/
def pyFoldMul : List Expr → Expr
  | [] => .num 1
  | x :: xs => xs.foldl pyMul x

/-- Call descriptors of the mutually recursive family `collapse`,
`collapse_tr`, `collapse_add`, `collapse_sub`, `collapse_mul`. -/
inductive CallK where
  | top (e : Expr)
  | ctr (a : Expr)
  | cadd (a b : Expr)
  | csub (a b : Expr)
  | cmul (c : List Expr)

/-- One fuel-indexed interpreter for the five mutually recursive collapsing
functions of `convert.py` (`collapse` and its four reducers), translated
branch for branch.  Every recursive Python call costs one unit of fuel, and
`spin` is returned when the fuel runs out. -/
def run : Nat → CallK → Res Value
  | 0, _ => .spin
  | n + 1, k =>
    match k with
    | .top e =>
      match e with
      | .num x => .ok (.num x)
      | .mat A => .ok (.mat A)
      | .vec v => .ok (.vec v)
      | .mul c => run n (.cmul c)
      | .add a b => run n (.cadd a b)
      | .sub a b => run n (.csub a b)
      | .tr a => run n (.ctr a)
      | .wrapA A => .ok (.mat A)
    | .ctr a =>
      match a with
      | .mat A => .ok (.mat A.transpose)
      | _ =>
        match run n (.top (.tr a)) with
        | .ok _ => .err
        | .err => .err
        | .spin => .spin
    | .cadd a b =>
      match a, b with
      | .mat A, .mat B =>
        if A.rows = B.rows ∧ A.cols = B.cols then .ok (.mat (A.axpy 1 B)) else .err
      | _, _ =>
        (run n (.top a)).bind fun va =>
        (run n (.top b)).bind fun vb =>
        match pyAddV va vb with
        | .add a2 b2 => run n (.cadd a2 b2)
        | _ => .err
    | .csub a b =>
      match a, b with
      | .mat A, .mat B =>
        if A.rows = B.rows ∧ A.cols = B.cols then .ok (.mat (A.axpy (-1) B)) else .err
      | _, _ =>
        (run n (.top a)).bind fun va =>
        (run n (.top b)).bind fun vb =>
        match pySubV va vb with
        | .sub a2 b2 => run n (.csub a2 b2)
        | _ => .err
    | .cmul c =>
      match c with
      | [] => .err
      | [_] => .err
      | [a, b] =>
        match a, b with
        | .mat A, .mat B =>
          if A.cols = B.rows then .ok (.mat (A.matMult B)) else .err
        | .mat A, .num x => .ok (.mat (A.scale x))
        | .num x, .mat B => .ok (.mat (B.scale x))
        | _, _ =>
          (run n (.top a)).bind fun va =>
          (run n (.top b)).bind fun vb =>
          run n (.top (pyMulV va vb))
      | a :: rest =>
        (run n (.top a)).bind fun va =>
        (run n (.top (pyFoldMul rest))).bind fun vb =>
        match pyMulV va vb with
        | .mul c2 => run n (.cmul c2)
        | _ => .err

/-- `collapse(bmat)` of convert.py. -/
def collapse (fuel : Nat) (e : Expr) : Res Value := run fuel (.top e)

/-- `collapse_tr(bmat)` of convert.py, on the node's operand `bmat.A`. -/
def collapse_tr (fuel : Nat) (a : Expr) : Res Value := run fuel (.ctr a)

/-- `collapse_add(bmat)` of convert.py, on the node's operands. -/
def collapse_add (fuel : Nat) (a b : Expr) : Res Value := run fuel (.cadd a b)

/-- `collapse_sub(bmat)` of convert.py, on the node's operands. -/
def collapse_sub (fuel : Nat) (a b : Expr) : Res Value := run fuel (.csub a b)

/-- `collapse_mul(bmat)` of convert.py, on the node's chain. -/
def collapse_mul (fuel : Nat) (c : List Expr) : Res Value := run fuel (.cmul c)

/-- What `get_dims` returns on success: `None` for a number, a plain length
for a vector, a (rows, cols) pair for a matrix-shaped operator. -/
inductive Dims where
  | scalar
  | ofVec (n : Nat)
  | ofMat (r c : Nat)
deriving DecidableEq

def Dims.fstD : Dims → Option Nat
  | .ofMat r _ => some r
  | _ => none

def Dims.sndD : Dims → Option Nat
  | .ofMat _ c => some c
  | _ => none

def Dims.isVecD : Dims → Bool
  | .ofVec _ => true
  | _ => false

/-- `get_dims(thing)` of convert.py, translated branch for branch.
`err` models the raised AssertionError / TypeError / IndexError /
ValueError; subscripting or taking `len` of a `None` or `int` dims value is
a TypeError. -/
def getDims : Nat → Expr → Res Dims
  | 0, _ => .spin
  | n + 1, e =>
    match e with
    | .vec v => .ok (.ofVec v.length)
    | .mat A => .ok (.ofMat A.rows A.cols)
    | .num _ => .ok .scalar
    | .mul c =>
      match c with
      | [] => .err
      | [_] => .err
      | a :: b0 :: brest =>
        match getDims n a with
        | .spin => .spin
        | .err => .err
        | .ok dA =>
          match getDims n b0 with
          | .spin => .spin
          | .err => .err
          | .ok dB0 =>
            if dA = .scalar then .ok dB0
            else if dB0 = .scalar then .ok dA
            else
              match brest with
              | [] =>
                match dA, dB0 with
                | .ofMat r c1, .ofMat r2 c2 =>
                  if c1 = r2 then .ok (.ofMat r c2) else .err
                | _, _ => .err
              | _ :: _ =>
                match getDims n (pyFoldMul (b0 :: brest)) with
                | .spin => .spin
                | .err => .err
                | .ok dB =>
                  match dA, dB with
                  | .ofMat r c1, .ofMat r2 c2 =>
                    if c1 = r2 then .ok (.ofMat r c2) else .err
                  | _, _ => .err
    | .add a b =>
      match a with
      | .num _ => getDims n b
      | _ =>
        match b with
        | .num _ => getDims n a
        | _ =>
          match getDims n a with
          | .spin => .spin
          | .err => .err
          | .ok dA =>
            match getDims n b with
            | .spin => .spin
            | .err => .err
            | .ok dB => if dA = dB then .ok dA else .err
    | .sub a b =>
      match a with
      | .num _ => getDims n b
      | _ =>
        match b with
        | .num _ => getDims n a
        | _ =>
          match getDims n a with
          | .spin => .spin
          | .err => .err
          | .ok dA =>
            match getDims n b with
            | .spin => .spin
            | .err => .err
            | .ok dB => if dA = dB then .ok dA else .err
    | .tr a =>
      match getDims n a with
      | .spin => .spin
      | .err => .err
      | .ok d =>
        match d with
        | .ofMat r c => .ok (.ofMat c r)
        | _ => .err
    | .wrapA A => .ok (.ofMat A.rows A.cols)

/-- A `block_mat`: its `blocks` attribute is an `m × n` numpy object array,
modelled as the shape plus the cell map. -/
structure BlockGrid where
  m : Nat
  n : Nat
  cell : Nat → Nat → Expr

def resTraverse {α β : Type} (f : α → Res β) : List α → Res (List β)
  | [] => .ok []
  | a :: l => (f a).bind fun b => (resTraverse f l).bind fun bs => .ok (b :: bs)

/-- `[get_dims(A) for A in row]`: the inner comprehension of `bmat_sizes`. -/
def getDimsList (fuel : Nat) (es : List Expr) : Res (List Dims) :=
  resTraverse (getDims fuel) es

/-- `[dim[0] for dim in dims if dim is not None]`: scalar dims (Python
`None`) are skipped; subscripting a vector dims (a plain `int`) raises
TypeError. -/
def dimFirsts : List Dims → Res (List Nat)
  | [] => .ok []
  | .scalar :: l => dimFirsts l
  | .ofMat r _ :: l => (dimFirsts l).bind fun t => .ok (r :: t)
  | .ofVec _ :: _ => .err

/-- `[dim[1] for dim in dims if dim is not None]`, for the column pass. -/
def dimSeconds : List Dims → Res (List Nat)
  | [] => .ok []
  | .scalar :: l => dimSeconds l
  | .ofMat _ c :: l => (dimSeconds l).bind fun t => .ok (c :: t)
  | .ofVec _ :: _ => .err

/-- `size = set(...); assert len(size) == 1, size; size.pop()`: the set of
the collected sizes must be a singleton, i.e. the list is nonempty and all
its elements agree; its unique element is returned. -/
def assertSingle : List Nat → Res Nat
  | [] => .err
  | x :: xs => if xs.all (fun y => y == x) then .ok x else .err

def rowOf (g : BlockGrid) (i : Nat) : List Expr :=
  (List.range g.n).map (g.cell i)

def colOf (g : BlockGrid) (j : Nat) : List Expr :=
  (List.range g.m).map (fun i => g.cell i j)

/-- The body of the row loop of `bmat_sizes`. -/
def row_size (fuel : Nat) (g : BlockGrid) (i : Nat) : Res Nat :=
  (getDimsList fuel (rowOf g i)).bind fun ds => (dimFirsts ds).bind assertSingle

/-- The body of the column loop of `bmat_sizes` (iterating `bmat.T`). -/
def col_size (fuel : Nat) (g : BlockGrid) (j : Nat) : Res Nat :=
  (getDimsList fuel (colOf g j)).bind fun ds => (dimSeconds ds).bind assertSingle

/-- `bmat_sizes(bmat)` of convert.py for a `block_mat` argument: all rows
are processed, then all columns, and the pair of size tuples is returned. -/
def bmat_sizes (fuel : Nat) (g : BlockGrid) : Res (List Nat × List Nat) :=
  (resTraverse (row_size fuel g) (List.range g.m)).bind fun rs =>
  (resTraverse (col_size fuel g) (List.range g.n)).bind fun cs =>
  .ok (rs, cs)

/-- `bmat_sizes(bmat)` of convert.py for a `block_vec` argument.  The source
line is `return tuple(map(get_dims, block_vec.blocks))`: it reads the
attribute `blocks` on the imported class `block_vec` itself, not on the
argument `bmat`; cbc.block's `block_vec` sets `blocks` per instance in
`__init__` and the class carries no such attribute, so the lookup raises
AttributeError for every input. -/
def bmat_sizes_vec (_bvec : List (List Int)) : Res (List Nat) := Res.err

/-- One converted cell of the block grid inside `convert`: after the loop
every block is a PETSc matrix or the number 0. -/
inductive Cell where
  | matC (A : Mat)
  | zeroC
deriving DecidableEq

/-- The per-cell step of `convert`'s loop: collapse results that are
numbers are rewritten — a non-zero number (at any position) must satisfy
`row_sizes[i] == col_sizes[j]` and becomes `diagonal_matrix(row_sizes[i],
A)`; zero stays the zero block.  A collapse result that is a vector later
fails the `assert is_petsc_mat(block) or is_number(block)` check. -/
def convert_cell (rs cs : List Nat) (i j : Nat) (v : Value) : Res Cell :=
  match v with
  | .num x =>
    if x = 0 then .ok .zeroC
    else if rs.getD i 0 = cs.getD j 0 then .ok (.matC (diagonal_matrix (rs.getD i 0) x))
    else .err
  | .mat A => .ok (.matC A)
  | .vec _ => .err

/-- The collapsing loop of `convert` over `itertools.product` order
(row-major), producing the grid of converted blocks. -/
def convert_blocks (fuel : Nat) (g : BlockGrid) (rs cs : List Nat) :
    Res (List (List Cell)) :=
  resTraverse
    (fun i => resTraverse
      (fun j => (collapse fuel (g.cell i j)).bind (convert_cell rs cs i j))
      (List.range g.n))
    (List.range g.m)

/-- `convert(bmat, algorithm)` up to the fully converted block grid (the
state after line 50, before the optional monolithic conversion). -/
def convert_grid (fuel : Nat) (g : BlockGrid) : Res (List (List Cell)) :=
  (bmat_sizes fuel g).bind fun p => convert_blocks fuel g p.1 p.2

/-- `block_mat_to_numpy` turns the number 0 into `None` and keeps matrices;
this is the grid handed to scipy's `bmat`. -/
def cellOpt : Cell → Option Mat
  | .matC A => some A
  | .zeroC => none

def zrow (n : Nat) : List Int := List.replicate n 0

/-- One global row of the scipy block concatenation: local row `r` of every
block of the block-row, a `None` block contributing a zero row of the
column's width. -/
def blockRowData (row : List (Option Mat)) (cs : List Nat) (r : Nat) : List Int :=
  ((row.zip cs).map (fun p =>
    match p.1 with
    | some A => A.data.getD r []
    | none => zrow p.2)).flatten

/-- `scipy.sparse.bmat` followed by `numpy_to_petsc`: the generic block
concatenation into one monolithic matrix, modelled densely. -/
def scipy_bmat (cellsGrid : List (List (Option Mat))) (rs cs : List Nat) : Mat :=
  ⟨rs.sum, cs.sum,
   ((cellsGrid.zip rs).map (fun p =>
     (List.range p.2).map (fun r => blockRowData p.1 cs r))).flatten⟩

/-- `convert(bmat)` with the default (truthy) algorithm: the
intermediate-format (numpy) monolithic assembly path. -/
def convert_numpy (fuel : Nat) (g : BlockGrid) : Res Mat :=
  (bmat_sizes fuel g).bind fun p =>
  (convert_blocks fuel g p.1 p.2).bind fun cells =>
  .ok (scipy_bmat (cells.map (fun row => row.map cellOpt)) p.1 p.2)

/-- `block_mat_to_petsc(bmat)` of convert.py, the row-streamed assembly
path.  Its first statement is `row_sizes, col_sizes = get_sizes(bmat)`, and
no `get_sizes` is defined in or imported into the module (only `bmat_sizes`
exists), so the global-name lookup raises NameError for every input before
any assembly happens. -/
def block_mat_to_petsc (_bmat : List (List Mat)) : Res Mat := Res.err

/-- The aliased vector view `ii_Function` of `xii/linalg/function.py`,
reduced to the part its indexing interface touches: the list of component
functions it holds. -/
structure ii_Function (α : Type) where
  functions : List α

/-- `ii_Function.__len__`. -/
def ii_len {α : Type} (f : ii_Function α) : Nat := f.functions.length

/-- `ii_Function.__getitem__(i)`: `assert 0 <= i < len(self)` (the raised
AssertionError is the bounds failure, `none` here) and then
`self.functions[i]`. -/
def ii_getitem {α : Type} (f : ii_Function α) (i : Int) : Option α :=
  if 0 ≤ i ∧ i < (ii_len f : Int) then f.functions[i.toNat]? else none

/-- `ii_Function.__iter__`: `for i in range(len(self)): yield self[i]`. -/
def ii_iter {α : Type} (f : ii_Function α) : List (Option α) :=
  (List.range (ii_len f)).map (fun i : Nat => ii_getitem f (Int.ofNat i))

/-! ## Concrete instances used by the claim theorems -/

def M32 : Mat := ⟨3, 2, [[1, 0], [0, 1], [1, 1]]⟩
def N24 : Mat := ⟨2, 4, [[1, 2, 3, 4], [5, 6, 7, 8]]⟩
def N57 : Mat := ⟨5, 7, List.replicate 5 (List.replicate 7 0)⟩
def M1 : Mat := ⟨1, 1, [[1]]⟩
def A1 : Mat := ⟨1, 1, [[2]]⟩
def M2 : Mat := ⟨2, 2, [[1, 0], [0, 1]]⟩
def N2 : Mat := ⟨2, 2, [[3, 0], [0, 4]]⟩
def W3 : Mat := ⟨3, 3, [[1, 0, 0], [0, 1, 0], [0, 0, 1]]⟩

/-- The chain `Multiply([2, M, N])` with M 3×2 and N 2×4. -/
def chainC1 : Expr := .mul [.num 2, .mat M32, .mat N24]

/-- The chain `Multiply([M, 2, N])` with M 3×2 and N 5×7: the adjacent
shaped operands have incompatible inner dimensions (2 vs 5). -/
def chainC5 : Expr := .mul [.mat M32, .num 2, .mat N57]

/-- `Add(M, M)` over the concrete 1×1 matrix `M1`: a well-formed,
shape-compatible expression node that is not yet a concrete matrix. -/
def addM1 : Expr := .add (.mat M1) (.mat M1)

/-- `Add(A, 0)` for the concrete 1×1 matrix `A1`. -/
def addA10 : Expr := .add (.mat A1) (.num 0)

/-- `Transpose(M1)`. -/
def trM1 : Expr := .tr (.mat M1)

/-- 2×2 block grid `[[M, 5], [0, N]]`: the scalar 5 sits strictly off the
diagonal. -/
def gridC6 : BlockGrid :=
  ⟨2, 2, fun i j =>
    (([[Expr.mat M2, Expr.num 5], [Expr.num 0, Expr.mat N2]].getD i []).getD j (Expr.num 0))⟩

def A3 : Mat := ⟨3, 3, [[1, 2, 0], [0, 1, 0], [1, 0, 1]]⟩
def B32 : Mat := ⟨3, 2, [[1, 0], [0, 2], [3, 0]]⟩
def C23 : Mat := ⟨2, 3, [[1, 1, 0], [0, 1, 1]]⟩
def D2 : Mat := ⟨2, 2, [[2, 0], [1, 1]]⟩

/-- The spec's concrete 2×2 scenario grid `[[A*A, B+B], [2*C - C, D*D*D]]`
with A 3×3, B 3×2, C 2×3, D 2×2. -/
def gridC9 : BlockGrid :=
  ⟨2, 2, fun i j =>
    (([[Expr.mul [.mat A3, .mat A3], Expr.add (.mat B32) (.mat B32)],
       [Expr.sub (Expr.mul [.num 2, .mat C23]) (.mat C23),
        Expr.mul [.mat D2, .mat D2, .mat D2]]].getD i []).getD j (Expr.num 0))⟩

/-- A consistent 2×2 block grid `[[M2, 0], [0, W3]]` used as the witness
instance for the block-size consistency theorem. -/
def gridW : BlockGrid :=
  ⟨2, 2, fun i j =>
    (([[Expr.mat M2, Expr.num 0], [Expr.num 0, Expr.mat W3]].getD i []).getD j (Expr.num 0))⟩

/-- The dims every cell of `gridW` reports. -/
def DW : Nat → Nat → Dims := fun i j =>
  if i = 0 ∧ j = 0 then .ofMat 2 2
  else if i = 1 ∧ j = 1 then .ofMat 3 3
  else .scalar

def Expr.isMat : Expr → Bool
  | .mat _ => true
  | _ => false

/-! ## Helper lemmas -/

theorem run_top_tr (n : Nat) (a : Expr) :
    run (n + 1) (.top (.tr a)) = run n (.ctr a) := rfl

theorem run_top_add (n : Nat) (a b : Expr) :
    run (n + 1) (.top (.add a b)) = run n (.cadd a b) := rfl

theorem tr_spin (a : Expr) (h : a.isMat = false) :
    ∀ n : Nat, run n (.ctr a) = Res.spin ∧ run n (.top (.tr a)) = Res.spin := by
  have step : ∀ n : Nat, run (n + 1) (.ctr a) =
      (match run n (.top (.tr a)) with
       | .ok _ => Res.err
       | .err => Res.err
       | .spin => Res.spin) := by
    intro n
    cases a with
    | mat A => simp [Expr.isMat] at h
    | num x => rfl
    | vec v => rfl
    | mul c => rfl
    | add x y => rfl
    | sub x y => rfl
    | tr x => rfl
    | wrapA A => rfl
  intro n
  induction n with
  | zero => exact ⟨rfl, rfl⟩
  | succ n ih =>
    refine ⟨?_, ?_⟩
    · rw [step n, ih.2]
    · rw [run_top_tr, ih.1]

theorem cadd_A10_one : run 1 (.cadd (.mat A1) (.num 0)) = Res.spin := rfl

theorem cadd_A10_step (m : Nat) :
    run (m + 2) (.cadd (.mat A1) (.num 0)) = run (m + 1) (.cadd (.mat A1) (.num 0)) := rfl

theorem add_scalar_spin : ∀ n : Nat, run n (.cadd (.mat A1) (.num 0)) = Res.spin := by
  intro n
  induction n with
  | zero => rfl
  | succ n ih =>
    cases n with
    | zero => exact cadd_A10_one
    | succ m => rw [cadd_A10_step]; exact ih

theorem resTraverse_map {α β γ : Type} (f : β → Res γ) (m : α → β) :
    ∀ l : List α, resTraverse f (l.map m) = resTraverse (fun a => f (m a)) l := by
  intro l
  induction l with
  | nil => rfl
  | cons a l ih => simp [resTraverse, ih]

theorem resTraverse_ok {α β : Type} {f : α → Res β} {h : α → β} :
    ∀ l : List α, (∀ a ∈ l, f a = .ok (h a)) → resTraverse f l = .ok (l.map h) := by
  intro l
  induction l with
  | nil => intro _; rfl
  | cons a l ih =>
    intro H
    have ha := H a (by simp)
    have ht := ih (fun x hx => H x (by simp [hx]))
    simp [resTraverse, ha, ht, Res.bind]

theorem resTraverse_err {α β : Type} {f : α → Res β} :
    ∀ l : List α, (∀ a ∈ l, f a ≠ .spin) → (∃ a ∈ l, f a = .err) →
      resTraverse f l = .err := by
  intro l
  induction l with
  | nil =>
    intro _ he
    rcases he with ⟨a, ha, _⟩
    exact absurd ha (List.not_mem_nil a)
  | cons a l ih =>
    intro hns he
    cases hfa : f a with
    | spin => exact absurd hfa (hns a (by simp))
    | err => simp [resTraverse, hfa, Res.bind]
    | ok b =>
      rcases he with ⟨x, hx, hxe⟩
      rcases List.mem_cons.mp hx with rfl | hx2
      · rw [hfa] at hxe; cases hxe
      · have ht := ih (fun y hy => hns y (by simp [hy])) ⟨x, hx2, hxe⟩
        simp [resTraverse, hfa, ht, Res.bind]

theorem resTraverse_ne_spin {α β : Type} {f : α → Res β} :
    ∀ l : List α, (∀ a ∈ l, f a ≠ .spin) → resTraverse f l ≠ .spin := by
  intro l
  induction l with
  | nil => intro _; simp [resTraverse]
  | cons a l ih =>
    intro hns
    cases hfa : f a with
    | spin => exact absurd hfa (hns a (by simp))
    | err => simp [resTraverse, hfa, Res.bind]
    | ok b =>
      cases hrt : resTraverse f l with
      | spin => exact absurd hrt (ih (fun y hy => hns y (by simp [hy])))
      | err => simp [resTraverse, hfa, hrt, Res.bind]
      | ok bs => simp [resTraverse, hfa, hrt, Res.bind]

theorem dimFirsts_ok :
    ∀ ds : List Dims, (∀ d ∈ ds, d.isVecD = false) →
      dimFirsts ds = .ok (ds.filterMap Dims.fstD) := by
  intro ds
  induction ds with
  | nil => intro _; rfl
  | cons d ds ih =>
    intro H
    have ht := ih (fun x hx => H x (by simp [hx]))
    cases d with
    | scalar => simpa [dimFirsts, List.filterMap_cons, Dims.fstD] using ht
    | ofVec k => have := H (.ofVec k) (by simp); simp [Dims.isVecD] at this
    | ofMat r c => simp [dimFirsts, ht, Res.bind, List.filterMap_cons, Dims.fstD]

theorem dimSeconds_ok :
    ∀ ds : List Dims, (∀ d ∈ ds, d.isVecD = false) →
      dimSeconds ds = .ok (ds.filterMap Dims.sndD) := by
  intro ds
  induction ds with
  | nil => intro _; rfl
  | cons d ds ih =>
    intro H
    have ht := ih (fun x hx => H x (by simp [hx]))
    cases d with
    | scalar => simpa [dimSeconds, List.filterMap_cons, Dims.sndD] using ht
    | ofVec k => have := H (.ofVec k) (by simp); simp [Dims.isVecD] at this
    | ofMat r c => simp [dimSeconds, ht, Res.bind, List.filterMap_cons, Dims.sndD]

theorem assertSingle_ok {v : Nat} :
    ∀ l : List Nat, l ≠ [] → (∀ y ∈ l, y = v) → assertSingle l = .ok v := by
  intro l hne hall
  cases l with
  | nil => exact absurd rfl hne
  | cons x xs =>
    have hx : x = v := hall x (by simp)
    have hxs : xs.all (fun y => y == x) = true := by
      rw [List.all_eq_true]
      intro y hy
      have hyv := hall y (by simp [hy])
      simp [hyv, hx]
    subst hx
    simp [assertSingle, hxs]

theorem assertSingle_err {l : List Nat} {y z : Nat} (hy : y ∈ l) (hz : z ∈ l)
    (hne : y ≠ z) : assertSingle l = .err := by
  cases l with
  | nil => cases hy
  | cons x xs =>
    by_cases hall : xs.all (fun w => w == x) = true
    · have hmem : ∀ w ∈ x :: xs, w = x := by
        intro w hw
        rcases List.mem_cons.mp hw with rfl | hw2
        · rfl
        · simpa using (List.all_eq_true.mp hall) w hw2
      exact absurd ((hmem y hy).trans (hmem z hz).symm) hne
    · simp [assertSingle, hall]

theorem assertSingle_ne_spin : ∀ l : List Nat, assertSingle l ≠ .spin := by
  intro l
  cases l with
  | nil => simp [assertSingle]
  | cons x xs => by_cases h : xs.all (fun y => y == x) = true <;> simp [assertSingle, h]

theorem row_size_eval (fuel : Nat) (g : BlockGrid) (i : Nat) (D : Nat → Nat → Dims)
    (hD : ∀ j, j < g.n → getDims fuel (g.cell i j) = .ok (D i j))
    (hnv : ∀ j, j < g.n → (D i j).isVecD = false) :
    row_size fuel g i = assertSingle (((List.range g.n).map (D i)).filterMap Dims.fstD) := by
  have h1 : getDimsList fuel (rowOf g i) = .ok ((List.range g.n).map (D i)) := by
    unfold getDimsList rowOf
    rw [resTraverse_map]
    exact resTraverse_ok (List.range g.n) (fun j hj => hD j (List.mem_range.mp hj))
  have h2 : dimFirsts ((List.range g.n).map (D i)) =
      .ok (((List.range g.n).map (D i)).filterMap Dims.fstD) := by
    apply dimFirsts_ok
    intro d hd
    rcases List.mem_map.mp hd with ⟨j, hj, rfl⟩
    exact hnv j (List.mem_range.mp hj)
  unfold row_size
  rw [h1]
  simp [Res.bind, h2]

theorem col_size_eval (fuel : Nat) (g : BlockGrid) (j : Nat) (D : Nat → Nat → Dims)
    (hD : ∀ i, i < g.m → getDims fuel (g.cell i j) = .ok (D i j))
    (hnv : ∀ i, i < g.m → (D i j).isVecD = false) :
    col_size fuel g j =
      assertSingle (((List.range g.m).map (fun i => D i j)).filterMap Dims.sndD) := by
  have h1 : getDimsList fuel (colOf g j) = .ok ((List.range g.m).map (fun i => D i j)) := by
    unfold getDimsList colOf
    rw [resTraverse_map]
    exact resTraverse_ok (List.range g.m) (fun i hi => hD i (List.mem_range.mp hi))
  have h2 : dimSeconds ((List.range g.m).map (fun i => D i j)) =
      .ok (((List.range g.m).map (fun i => D i j)).filterMap Dims.sndD) := by
    apply dimSeconds_ok
    intro d hd
    rcases List.mem_map.mp hd with ⟨i, hi, rfl⟩
    exact hnv i (List.mem_range.mp hi)
  unfold col_size
  rw [h1]
  simp [Res.bind, h2]

theorem range_map_getElem? {α : Type} (l : List α) :
    (List.range l.length).map (fun i => l[i]?) = l.map some := by
  induction l with
  | nil => rfl
  | cons x xs ih =>
    rw [List.length_cons, List.range_succ_eq_map, List.map_cons, List.map_map, List.map_cons]
    simp only [List.getElem?_cons_zero, Function.comp_def, List.getElem?_cons_succ]
    rw [ih]

/-! ## Claim theorems -/

/-- C1: the claim states that `get_dims(collapse(E)) == get_dims(E)`
whenever both are defined, in particular for Multiply chains of three or
more operands containing a scalar.  The code violates it: for the chain
`Multiply([2, M, N])` with M 3×2 and N 2×4, `get_dims` returns (3, 2) —
after absorbing the leading scalar it returns the dims of the second
operand only, ignoring the rest of the chain — while the collapsed result
2·(M·N) has dims (3, 4). -/
theorem C1_shape_propagation_fails :
    getDims 20 chainC1 = Res.ok (Dims.ofMat 3 2) ∧
    Res.bind (collapse 20 chainC1) (fun v => getDims 20 v.toExpr) =
      Res.ok (Dims.ofMat 3 4) := by
  decide

/-- C2: the claim states that `collapse` terminates on every well-formed
expression node, the Transpose reducer recursively collapsing its operand
until the base case is reached in finitely many steps.  The code violates
it: for the well-formed node `Transpose(Add(M, M))` (whose operand
collapses fine, first conjunct), `collapse_tr` recurses as
`collapse_tr(collapse(bmat))` on the whole transpose node, which dispatches
straight back to `collapse_tr(bmat)`, so no fuel suffices (second
conjunct): the Python recursion never reaches the base case. -/
theorem C2_collapse_tr_diverges :
    collapse 3 addM1 = Res.ok (Value.mat (Mat.axpy M1 1 M1)) ∧
    ∀ fuel : Nat, collapse fuel (Expr.tr addM1) = Res.spin := by
  refine ⟨by decide, fun fuel => ?_⟩
  exact (tr_spin addM1 rfl fuel).2

/-- C3: the claim states that `collapse(Add(A, 0))` is defined and equals
`collapse(A)` for any matrix A and scalar 0.  The code violates it:
`collapse_add`'s base case requires two concrete matrices and it has no
scalar branch, so with A concrete and B = 0 the recursion
`collapse_add(collapse(A) + collapse(B))` rebuilds the very same
`Add(A, 0)` node and never terminates, for every amount of fuel — while
`collapse(A)` itself is defined (first conjunct). -/
theorem C3_additive_identity_fails :
    collapse 3 (Expr.mat A1) = Res.ok (Value.mat A1) ∧
    ∀ fuel : Nat, collapse fuel addA10 = Res.spin := by
  refine ⟨by decide, fun fuel => ?_⟩
  cases fuel with
  | zero => rfl
  | succ n => exact (run_top_add n (Expr.mat A1) (Expr.num 0)).trans (add_scalar_spin n)

/-- C4: the claim states that `collapse(Transpose(Transpose(A)))` is
defined and equals `collapse(A)` element-wise for every matrix-shaped A.
The code violates it: the outer `collapse_tr` sees the operand
`Transpose(A)`, which is not a concrete matrix, and recurses on the whole
node via `collapse_tr(collapse(bmat))`, which dispatches straight back to
itself — so the double transpose never collapses for any fuel, although a
single transpose does (first conjunct). -/
theorem C4_transpose_involution_fails :
    collapse 2 trM1 = Res.ok (Value.mat (Mat.transpose M1)) ∧
    ∀ fuel : Nat, collapse fuel (Expr.tr trM1) = Res.spin := by
  refine ⟨by decide, fun fuel => (tr_spin trM1 rfl fuel).2⟩

/-- C5: the claim states that `get_dims` on a Multiply chain absorbs
scalar operands, checks every adjacent pair of shaped operands for
compatible inner dimensions (failing with ShapeError otherwise), and
returns (rows of leftmost shaped, cols of rightmost shaped).  The code
violates it: for `Multiply([M, 2, N])` with M 3×2 and N 5×7 it returns
(3, 2) with no error — when the second chain element is a scalar it
returns `get_dims` of the first element and never inspects the rest of
the chain, so neither the 2 ≠ 5 mismatch is reported nor N's columns
enter the result. -/
theorem C5_multiply_dims_unchecked :
    getDims 20 chainC5 = Res.ok (Dims.ofMat 3 2) := by
  decide

/-- C6: the claim states that in monolithic assembly every scalar cell
strictly off the diagonal (any value) becomes an all-zero block.  The code
violates it: in the grid `[[M, 5], [0, N]]` the non-zero scalar 5 at the
off-diagonal cell (0, 1) is converted to `diagonal_matrix(2, 5)` — five
times the identity (second conjunct), not a zero block — because `convert`
promotes every non-zero scalar cell regardless of its position, contrary
to its own comment that only diagonal numbers are interpreted as scaled
identities. -/
theorem C6_offdiagonal_scalar_promoted :
    convert_grid 10 gridC6 =
      Res.ok [[Cell.matC M2, Cell.matC (diagonal_matrix 2 5)],
              [Cell.zeroC, Cell.matC N2]] ∧
    diagonal_matrix 2 5 = ⟨2, 2, [[5, 0], [0, 5]]⟩ := by
  decide

/-- C7: for a matrix block grid whose cells all have knowable (matrix or
scalar) dims, `bmat_sizes` fails when two cells with knowable shape in the
same block-row report different row sizes, or two such cells in the same
block-column report different column sizes; and when every row and column
has at least one knowable size and all of them agree, it returns exactly
the tuple of agreed row sizes and column sizes, scalar cells ignored. -/
theorem C7_bmat_sizes_consistency (fuel : Nat) (g : BlockGrid) (D : Nat → Nat → Dims)
    (hD : ∀ i, i < g.m → ∀ j, j < g.n → getDims fuel (g.cell i j) = Res.ok (D i j))
    (hnv : ∀ i, i < g.m → ∀ j, j < g.n → (D i j).isVecD = false) :
    ((∃ i, i < g.m ∧ ∃ j, j < g.n ∧ ∃ j2, j2 < g.n ∧ ∃ r r2,
        (D i j).fstD = some r ∧ (D i j2).fstD = some r2 ∧ r ≠ r2) →
      bmat_sizes fuel g = Res.err) ∧
    ((∃ j, j < g.n ∧ ∃ i, i < g.m ∧ ∃ i2, i2 < g.m ∧ ∃ c c2,
        (D i j).sndD = some c ∧ (D i2 j).sndD = some c2 ∧ c ≠ c2) →
      bmat_sizes fuel g = Res.err) ∧
    (∀ RS CS : Nat → Nat,
      (∀ i, i < g.m → ∀ j, j < g.n → (D i j).fstD.getD (RS i) = RS i) →
      (∀ i, i < g.m → ∀ j, j < g.n → (D i j).sndD.getD (CS j) = CS j) →
      (∀ i, i < g.m → ∃ j, j < g.n ∧ (D i j).fstD.isSome = true) →
      (∀ j, j < g.n → ∃ i, i < g.m ∧ (D i j).sndD.isSome = true) →
      bmat_sizes fuel g = Res.ok ((List.range g.m).map RS, (List.range g.n).map CS)) := by
  have hre : ∀ i, i < g.m →
      row_size fuel g i = assertSingle (((List.range g.n).map (D i)).filterMap Dims.fstD) :=
    fun i hi => row_size_eval fuel g i D (fun j hj => hD i hi j hj) (fun j hj => hnv i hi j hj)
  have hce : ∀ j, j < g.n →
      col_size fuel g j =
        assertSingle (((List.range g.m).map (fun i => D i j)).filterMap Dims.sndD) :=
    fun j hj => col_size_eval fuel g j D (fun i hi => hD i hi j hj) (fun i hi => hnv i hi j hj)
  have hrns : ∀ i ∈ List.range g.m, row_size fuel g i ≠ Res.spin := by
    intro i hi
    rw [hre i (List.mem_range.mp hi)]
    exact assertSingle_ne_spin _
  have hcns : ∀ j ∈ List.range g.n, col_size fuel g j ≠ Res.spin := by
    intro j hj
    rw [hce j (List.mem_range.mp hj)]
    exact assertSingle_ne_spin _
  refine ⟨?_, ?_, ?_⟩
  · rintro ⟨i, hi, j, hj, j2, hj2, r, r2, hr, hr2, hne⟩
    have herr : row_size fuel g i = Res.err := by
      rw [hre i hi]
      exact assertSingle_err
        (List.mem_filterMap.mpr ⟨D i j, List.mem_map.mpr ⟨j, List.mem_range.mpr hj, rfl⟩, hr⟩)
        (List.mem_filterMap.mpr ⟨D i j2, List.mem_map.mpr ⟨j2, List.mem_range.mpr hj2, rfl⟩, hr2⟩)
        hne
    have hrows : resTraverse (row_size fuel g) (List.range g.m) = Res.err :=
      resTraverse_err _ hrns ⟨i, List.mem_range.mpr hi, herr⟩
    simp [bmat_sizes, hrows, Res.bind]
  · rintro ⟨j, hj, i, hi, i2, hi2, c, c2, hc, hc2, hne⟩
    have herr : col_size fuel g j = Res.err := by
      rw [hce j hj]
      exact assertSingle_err
        (List.mem_filterMap.mpr ⟨D i j, List.mem_map.mpr ⟨i, List.mem_range.mpr hi, rfl⟩, hc⟩)
        (List.mem_filterMap.mpr ⟨D i2 j, List.mem_map.mpr ⟨i2, List.mem_range.mpr hi2, rfl⟩, hc2⟩)
        hne
    have hcols : resTraverse (col_size fuel g) (List.range g.n) = Res.err :=
      resTraverse_err _ hcns ⟨j, List.mem_range.mpr hj, herr⟩
    cases hR : resTraverse (row_size fuel g) (List.range g.m) with
    | ok rs => simp [bmat_sizes, hR, hcols, Res.bind]
    | err => simp [bmat_sizes, hR, Res.bind]
    | spin => exact absurd hR (resTraverse_ne_spin _ hrns)
  · intro RS CS hagr hagc hexr hexc
    have hro : ∀ i ∈ List.range g.m, row_size fuel g i = Res.ok (RS i) := by
      intro i hi0
      have hi := List.mem_range.mp hi0
      rw [hre i hi]
      apply assertSingle_ok
      · obtain ⟨j, hj, hsome⟩ := hexr i hi
        obtain ⟨r, hr⟩ := Option.isSome_iff_exists.mp hsome
        exact List.ne_nil_of_mem
          (List.mem_filterMap.mpr ⟨D i j, List.mem_map.mpr ⟨j, List.mem_range.mpr hj, rfl⟩, hr⟩)
      · intro y hy
        rcases List.mem_filterMap.mp hy with ⟨d, hd, hfd⟩
        rcases List.mem_map.mp hd with ⟨j, hj0, rfl⟩
        have hval := hagr i hi j (List.mem_range.mp hj0)
        rw [hfd] at hval
        simpa using hval
    have hco : ∀ j ∈ List.range g.n, col_size fuel g j = Res.ok (CS j) := by
      intro j hj0
      have hj := List.mem_range.mp hj0
      rw [hce j hj]
      apply assertSingle_ok
      · obtain ⟨i, hi, hsome⟩ := hexc j hj
        obtain ⟨c, hc⟩ := Option.isSome_iff_exists.mp hsome
        exact List.ne_nil_of_mem
          (List.mem_filterMap.mpr ⟨D i j, List.mem_map.mpr ⟨i, List.mem_range.mpr hi, rfl⟩, hc⟩)
      · intro y hy
        rcases List.mem_filterMap.mp hy with ⟨d, hd, hfd⟩
        rcases List.mem_map.mp hd with ⟨i, hi0, rfl⟩
        have hval := hagc i (List.mem_range.mp hi0) j hj
        rw [hfd] at hval
        simpa using hval
    have h1 : resTraverse (row_size fuel g) (List.range g.m) =
        Res.ok ((List.range g.m).map RS) := resTraverse_ok _ hro
    have h2 : resTraverse (col_size fuel g) (List.range g.n) =
        Res.ok ((List.range g.n).map CS) := resTraverse_ok _ hco
    simp [bmat_sizes, h1, h2, Res.bind]

/-- C7 witness: the consistency theorem applied to the concrete grid
`[[M2, 0], [0, W3]]` with M2 2×2 and W3 3×3 yields the agreed sizes. -/
theorem C7_bmat_sizes_witness : bmat_sizes 5 gridW = Res.ok ([2, 3], [2, 3]) :=
  ((C7_bmat_sizes_consistency 5 gridW DW (by decide) (by decide)).2.2
    (fun i => if i = 0 then 2 else 3) (fun j => if j = 0 then 2 else 3)
    (by decide) (by decide) (by decide) (by decide)).trans (by decide)

/-- C8: the claim states that for a vector block structure `bmat_sizes`
returns the per-component vector lengths as the row sizes.  The code
violates it: the vector branch reads `block_vec.blocks`, an attribute
lookup on the class rather than the argument, which raises AttributeError
for every input; on a block vector of lengths [3, 2] nothing is returned. -/
theorem C8_bmat_sizes_vec_raises :
    bmat_sizes_vec [[1, 2, 3], [4, 5]] = Res.err := rfl

/-- C9: the claim states that on the spec's 2×2 scenario grid both the
intermediate-format path and the row-streamed path succeed with equal 5×5
matrices.  The code violates it: the intermediate-format (numpy) path does
produce a 5×5 matrix (first conjunct), but `block_mat_to_petsc` begins with
`get_sizes(bmat)` and no `get_sizes` exists in the module, so the
row-streamed path raises NameError on every input (second conjunct). -/
theorem C9_row_streamed_path_fails :
    Res.bind (convert_numpy 20 gridC9) (fun M => Res.ok (M.rows, M.cols)) =
      Res.ok (5, 5) ∧
    block_mat_to_petsc [[A3, B32], [C23, D2]] = Res.err :=
  ⟨by decide, rfl⟩

/-- C10: indexed access on an aliased vector view returns the i-th
component for every integer index in [0, N) and fails for every index
outside [0, N) (negative indices included), and iteration yields exactly
the N components in index order. -/
theorem C10_ii_getitem_bounds (α : Type) (f : ii_Function α) :
    (∀ i : Int, 0 ≤ i → i < (ii_len f : Int) →
      ii_getitem f i = f.functions[i.toNat]? ∧ (f.functions[i.toNat]?).isSome = true) ∧
    (∀ i : Int, ¬(0 ≤ i ∧ i < (ii_len f : Int)) → ii_getitem f i = none) ∧
    ii_iter f = f.functions.map some := by
  refine ⟨?_, ?_, ?_⟩
  · intro i h0 hlen
    have hlen2 : i < (f.functions.length : Int) := hlen
    have htn : i.toNat < f.functions.length := by omega
    refine ⟨?_, ?_⟩
    · simp [ii_getitem, h0, hlen]
    · rw [List.getElem?_eq_getElem htn]; rfl
  · intro i hni
    simp only [ii_getitem, if_neg hni]
  · unfold ii_iter
    have hcong : ∀ i ∈ List.range (ii_len f),
        ii_getitem f (Int.ofNat i) = f.functions[i]? := by
      intro i hi
      have hilt := List.mem_range.mp hi
      have hc : 0 ≤ (Int.ofNat i) ∧ (Int.ofNat i) < (ii_len f : Int) :=
        ⟨Int.ofNat_nonneg i, Int.ofNat_lt.mpr hilt⟩
      simp only [ii_getitem, if_pos hc]
      rfl
    rw [List.map_congr_left hcong]
    exact range_map_getElem? f.functions

/-- C10 witness: on the concrete two-component view [10, 20], a negative
index fails and iteration yields the two components in order. -/
theorem C10_ii_getitem_witness :
    ii_getitem (⟨[10, 20]⟩ : ii_Function Int) (-1) = none ∧
    ii_iter (⟨[10, 20]⟩ : ii_Function Int) = [some 10, some 20] := by
  refine ⟨?_, ?_⟩
  · exact (C10_ii_getitem_bounds Int ⟨[10, 20]⟩).2.1 (-1) (by decide)
  · rw [(C10_ii_getitem_bounds Int ⟨[10, 20]⟩).2.2]
    rfl

end Xii
